import Mathlib

/-!
Verification of the pipeline-management UI logic of the orchest repository.

The definitions below are a shallow embedding of the two source files

  * src/services/orchest-webserver/client/src/components/PipelineList.tsx
  * src/services/orchest-webserver/client/src/edit-job-view/LoadParametersDialog.tsx

Pure helpers (default-name generation, path derivation, error-code mapping,
client-side validation) become Lean functions over Lean strings; the
event-handler flows become functions from the handler inputs plus an oracle
for the network outcome to a record of the observable effects (requests
issued, alert shown, dialog-open state, list refresh).
-/

/-- PipelineMetaData from PipelineList.tsx: name, path and uuid of a pipeline. -/
structure PipelineMetaData where
  name : String
  path : String
  uuid : String
deriving DecidableEq

/-- PipelineRowData: PipelineMetaData extended with the derived session status. -/
structure PipelineRowData where
  name : String
  path : String
  uuid : String
  sessionStatus : String
deriving DecidableEq

/-- JavaScript lower-casing of a character as used by the case-insensitive
regex flag: ASCII upper-case letters map to lower case. -/
def lc (c : Char) : Char := c.toLower

/-- case-insensitive match of a literal pattern (given in lower case) against
a prefix of the subject, one character each. -/
def isPrefixCI : List Char → List Char → Bool
  | [], _ => true
  | _ :: _, [] => false
  | p :: ps, c :: cs => (lc c == p) && isPrefixCI ps cs

/-- decimal value of a digit string, as parseInt produces on an all-digit
input (the only inputs the component feeds it). -/
def parseDigits (ds : List Char) : Nat :=
  ds.foldl (fun a c => a * 10 + (c.toNat - 48)) 0

/-- `pipeline.name.match(regExp)` for `regExp = new RegExp("^Main( [0-9]+)?", "i")`:
`none` when the name does not start with "Main" (case-insensitively);
otherwise the value of the optional capture group " N" right after the
prefix, a missing group counting as 0 (lines 32-42 of PipelineList.tsx). -/
def mainMatch (s : String) : Option Nat :=
  if isPrefixCI ['m', 'a', 'i', 'n'] s.data then
    match s.data.drop 4 with
    | [] => some 0
    | c :: r =>
      if c = ' ' then
        let ds := r.takeWhile Char.isDigit
        if ds.isEmpty then some 0 else some (parseDigits ds)
      else some 0
  else none

/-- decimal rendering of a natural number, as JavaScript template
interpolation renders the nonnegative integer `newNumber`. -/
def natDigits (n : Nat) : List Char :=
  if n < 10 then [Char.ofNat (48 + n)]
  else natDigits (n / 10) ++ [Char.ofNat (48 + n % 10)]
termination_by n
decreasing_by
  exact Nat.div_lt_self (by omega) (by omega)

def INITIAL_PIPELINE_NAME : String := "Main"

def INITIAL_PIPELINE_PATH : String := "main.orchest"

/-- the string `"Main " + newNumber` produced by the template literal in
getValidNewPipelineName. -/
def mkMainName (newNumber : Nat) : String :=
  ⟨"Main ".data ++ natDigits newNumber⟩

/-- the reduce step of getValidNewPipelineName (lines 35-42): keep the
accumulator on a non-matching name, otherwise take the max with the
matched number. -/
def bumpNum (existingNumber : Int) (p : PipelineMetaData) : Int :=
  match mainMatch p.name with
  | none => existingNumber
  | some currentNumber => max existingNumber (currentNumber : Int)

/-- `pipelines.reduce(..., -1)` of getValidNewPipelineName. -/
def largestExistingNumber (pipelines : List PipelineMetaData) : Int :=
  pipelines.foldl bumpNum (-1)

/-- getValidNewPipelineName (lines 34-47 of PipelineList.tsx). -/
def getValidNewPipelineName (pipelines : List PipelineMetaData) : String :=
  let newNumber : Int := largestExistingNumber pipelines + 1
  if 0 < newNumber then mkMainName newNumber.toNat else INITIAL_PIPELINE_NAME

/-- a JavaScript word character, the complement of the `[\W]` class:
ASCII letters, digits and the underscore. -/
def isWordChar (c : Char) : Bool := c.isAlphanum || c == '_'

/-- getPathFromName (lines 49-50): lower-case the name, replace every
non-word character by an underscore, append ".orchest". -/
def getPathFromName (name : String) : String :=
  ⟨((name.data.map lc).map (fun c => if isWordChar c then c else '_')) ++ ".orchest".data⟩

/-- getErrorMessages (lines 52-60): the fixed mapping from the rename
endpoint's numeric codes to user-facing messages; object lookup of any
other code yields undefined, modelled as `none`. -/
def getErrorMessages (path : String) : Nat → Option String
  | 0 => some ""
  | 1 => some "Cannot change the pipeline path if an interactive session is running. Please stop it first."
  | 2 => some ("Cannot change the pipeline path, a file path with the name " ++ path ++ "\x22 already exists.")
  | 3 => some "The pipeline does not exist."
  | 4 => some "The pipeline file name should end with \x22.orchest\x22."
  | 5 => some "The pipeline file does not exist."
  | 6 => some "Can\x27t move the pipeline outside of the project."
  | _ => none

/-- JavaScript String.prototype.endsWith. -/
def jsEndsWith (s pat : String) : Bool :=
  pat.data.isSuffixOf s.data

/-- `pipelineRows.some(row => row.path === state.createPipelinePath)`
(lines 239-241). -/
def isPathTaken (pipelineRows : List PipelineRowData) (createPipelinePath : String) : Bool :=
  pipelineRows.any (fun row => row.path == createPipelinePath)

/-- outcome of the create-pipeline submit handler: either a client-side
alert with no network activity, or the POST request with its body fields. -/
inductive CreateOutcome where
  | alert (title msg : String)
  | request (name pipeline_path : String)
deriving DecidableEq

/-- onSubmitCreatePipeline, validation part (lines 345-362): the three
client-side checks performed before the POST is issued. -/
def onSubmitCreatePipeline (pipelineName pipelinePath : String) : CreateOutcome :=
  if pipelineName = "" then
    CreateOutcome.alert "Error" "Please enter a name."
  else if pipelinePath = "" ∨ pipelinePath = ".orchest" then
    CreateOutcome.alert "Error" "Please enter the path for the pipeline."
  else if jsEndsWith pipelinePath ".orchest" = false then
    CreateOutcome.alert "Error" "The path should end in the .orchest extension."
  else
    CreateOutcome.request pipelineName pipelinePath

/-- `disabled={isPathTaken || isOperating}` on the create-pipeline submit
button (line 472). -/
def createSubmitDisabled (pipelineRows : List PipelineRowData)
    (createPipelinePath : String) (isOperating : Bool) : Bool :=
  isPathTaken pipelineRows createPipelinePath || isOperating

/-- `helperText={isPathTaken ? "File already exists" : ""}` on the path
text field of the create dialog (line 455). -/
def createPathHelperText (pipelineRows : List PipelineRowData)
    (createPipelinePath : String) : String :=
  if isPathTaken pipelineRows createPipelinePath then "File already exists" else ""

/-- observable effects of one full run of the create flow: whether the POST
was issued, the alert raised (if any), whether the list was re-fetched, and
the create dialog's open flag afterwards. -/
structure CreateFlowResult where
  requested : Bool
  alertMsg : Option String
  refreshed : Bool
  isCreateDialogOpen : Bool
deriving DecidableEq

/-- onSubmitCreatePipeline, full flow (lines 345-391).  `requestFails` and
`isCanceled` describe the settlement of the POST; `parsedMessage` is the
`message` field of the failure body when that body parses as JSON. -/
def createPipelineFlow (pipelineName pipelinePath : String)
    (requestFails isCanceled : Bool) (parsedMessage : Option String) : CreateFlowResult :=
  match onSubmitCreatePipeline pipelineName pipelinePath with
  | CreateOutcome.alert _ m =>
    { requested := false, alertMsg := some m, refreshed := false, isCreateDialogOpen := true }
  | CreateOutcome.request _ _ =>
    { requested := true
      alertMsg :=
        if requestFails then
          if isCanceled then none
          else
            match parsedMessage with
            | some m => some ("Could not create pipeline. " ++ m)
            | none => some "Could not create pipeline. Reason unknown."
        else none
      refreshed := !requestFails
      isCreateDialogOpen := false }

/-- the `pipelineInEdit` state driving the edit-path dialog. -/
structure PipelineInEdit where
  uuid : String
  path : String
deriving DecidableEq

/-- outcome of the rename submit handler before the request settles. -/
inductive RenameOutcome where
  | noop
  | alert (title msg : String)
  | request (uuid path : String)
deriving DecidableEq

/-- onSubmitEditPipelinePathModal, validation part (lines 296-302): nothing
happens without a pipeline in edit; a path without the ".orchest" suffix
raises the fixed alert and no request; otherwise the PUT is issued. -/
def onSubmitEditPipelinePathModal (pipelineInEdit : Option PipelineInEdit) : RenameOutcome :=
  match pipelineInEdit with
  | none => RenameOutcome.noop
  | some pe =>
    if jsEndsWith pe.path ".orchest" = false then
      RenameOutcome.alert "Error" "The path should end in the .orchest extension."
    else
      RenameOutcome.request pe.uuid pe.path

/-- observable effects of one full run of the rename flow. -/
structure RenameFlowResult where
  requested : Bool
  alertMsg : Option String
  refreshed : Bool
  isEditDialogOpen : Bool
deriving DecidableEq

/-- onSubmitEditPipelinePathModal, full flow (lines 296-330).  On rejection
the body is parsed for a numeric `code` mapped through getErrorMessages
(`parsedCode = none` models an unparseable body, which is only logged); the
`finally` clause closes the dialog whenever the request was issued. -/
def renamePipelineFlow (pe : PipelineInEdit) (requestFails : Bool)
    (parsedCode : Option Nat) : RenameFlowResult :=
  match onSubmitEditPipelinePathModal (some pe) with
  | RenameOutcome.noop =>
    { requested := false, alertMsg := none, refreshed := false, isEditDialogOpen := true }
  | RenameOutcome.alert _ m =>
    { requested := false, alertMsg := some m, refreshed := false, isEditDialogOpen := true }
  | RenameOutcome.request _ _ =>
    { requested := true
      alertMsg :=
        if requestFails then
          match parsedCode with
          | some code => getErrorMessages pe.path code
          | none => none
        else none
      refreshed := !requestFails
      isEditDialogOpen := false }

/-- a DELETE request as issued by requestDeletePipelines (lines 79-83). -/
structure DeleteRequest where
  url : String
  method : String
deriving DecidableEq

def requestDeletePipelines (projectUuid pipelineUuid : String) : DeleteRequest :=
  { url := "/async/pipelines/delete/" ++ projectUuid ++ "/" ++ pipelineUuid
    method := "DELETE" }

/-- observable effects of the confirmed delete flow. -/
structure DeleteFlowResult where
  requests : List DeleteRequest
  refreshed : Bool
  alerted : Bool
  confirmResolved : Bool
deriving DecidableEq

/-- deletePipelines' confirmation callback (lines 274-288): one DELETE per
selected uuid via Promise.all; when every request fulfills the list is
re-fetched and the confirm resolves true; when any request rejects the
error alert is raised and the confirm resolves false (and nothing is
re-fetched). `rejects` is the oracle for which requests reject. -/
def deletePipelinesConfirmed (projectUuid : String) (pipelineUuids : List String)
    (rejects : DeleteRequest → Bool) : DeleteFlowResult :=
  let requests := pipelineUuids.map (requestDeletePipelines projectUuid)
  let anyRejected := requests.any rejects
  { requests := requests
    refreshed := !anyRejected
    alerted := anyRejected
    confirmResolved := !anyRejected }

/-- `React.useState("")` backing selectedPath of LoadParametersDialog
(line 63). -/
def loadParametersInitialSelectedPath : String := ""

/-- what the LoadParametersDialog form's submit does. -/
inductive LoadParametersSubmitResult where
  | emit (value : String)
deriving DecidableEq

/-- the form onSubmit of LoadParametersDialog (lines 75-81): it calls the
`onSubmit` prop with the current selectedPath; the validity signals computed
for the picker (`doesFileExist`, `isCheckingFileValidity`) are in scope but
not consulted. -/
def loadParametersOnSubmit (selectedPath : String)
    (doesFileExist isCheckingFileValidity : Bool) : LoadParametersSubmitResult :=
  LoadParametersSubmitResult.emit selectedPath

/-- full-to-the-end match of `[^\/]*.orchest$` against `cs`: some split
`xs ++ [c] ++ "orchest"` with `xs` slash-free; the sizes force `xs` to be
everything but the last eight characters and `c` (matched by the unescaped
dot, hence arbitrary) the eighth-from-last character. -/
def cwdBody (cs : List Char) : Bool :=
  decide (8 ≤ cs.length) &&
    decide (cs.drop (cs.length - 7) = "orchest".data) &&
    (cs.take (cs.length - 8)).all (fun c => c != '/')

/-- match of the whole regex `\/?[^\/]*.orchest$` at this position, running
to the end of the string: either the optional slash matches nothing, or the
position holds a slash and the rest matches the body. -/
def cwdMatchHere : List Char → Bool
  | [] => cwdBody []
  | c :: cs => cwdBody (c :: cs) || (c == '/' && cwdBody cs)

/-- String.prototype.replace with the pattern `\/?[^\/]*.orchest$` and
replacement "/": scan for the leftmost position where the (end-anchored)
pattern matches and replace the matched suffix by a single slash; an
unmatched subject is returned unchanged. -/
def replaceCwdOnce : List Char → List Char
  | [] => []
  | c :: cs => if cwdMatchHere (c :: cs) then ['/'] else c :: replaceCwdOnce cs

/-- `pipeline.path.replace(/\/?[^\/]*.orchest$/, "/")` — the working
directory handed to the file picker (line 65 of LoadParametersDialog.tsx). -/
def pipelineCwd (pipelinePath : String) : String :=
  ⟨replaceCwdOnce pipelinePath.data⟩

/-- Full match of the pattern "Main( N)?" (case-insensitive) against the
whole name, the reading of "a name matching Main( N)?" used by the spec:
the name is exactly a case variant of "Main", optionally followed by one
space and a run of digits; the suffix value is that number, 0 when absent. -/
def specFullMatchSuffix (s : String) : Option Nat :=
  if isPrefixCI ['m', 'a', 'i', 'n'] s.data then
    match s.data.drop 4 with
    | [] => some 0
    | c :: ds =>
      if c = ' ' then
        if !ds.isEmpty && ds.all Char.isDigit then some (parseDigits ds) else none
      else none
  else none

/-! Helper lemmas about the decimal rendering `natDigits`. -/

lemma natDigits_lt {n : Nat} (h : n < 10) : natDigits n = [Char.ofNat (48 + n)] := by
  rw [natDigits]
  simp [h]

lemma natDigits_ge {n : Nat} (h : ¬ n < 10) :
    natDigits n = natDigits (n / 10) ++ [Char.ofNat (48 + n % 10)] := by
  rw [natDigits]
  simp [h]

lemma digitChar_toNat {d : Nat} (h : d < 10) : (Char.ofNat (48 + d)).toNat = 48 + d := by
  interval_cases d <;> decide

lemma digitChar_isDigit {d : Nat} (h : d < 10) : (Char.ofNat (48 + d)).isDigit = true := by
  interval_cases d <;> decide

lemma parseDigits_append_singleton (xs : List Char) (c : Char) :
    parseDigits (xs ++ [c]) = parseDigits xs * 10 + (c.toNat - 48) := by
  simp [parseDigits, List.foldl_append]

lemma parseDigits_natDigits (n : Nat) : parseDigits (natDigits n) = n := by
  induction n using Nat.strong_induction_on with
  | _ n ih =>
    by_cases h : n < 10
    · rw [natDigits_lt h]
      simp [parseDigits, digitChar_toNat h]
    · rw [natDigits_ge h, parseDigits_append_singleton,
        ih (n / 10) (Nat.div_lt_self (by omega) (by omega)),
        digitChar_toNat (Nat.mod_lt _ (by omega))]
      omega

lemma natDigits_ne_nil (n : Nat) : natDigits n ≠ [] := by
  by_cases h : n < 10
  · rw [natDigits_lt h]
    simp
  · rw [natDigits_ge h]
    simp

lemma natDigits_all_digit (n : Nat) : ∀ c ∈ natDigits n, c.isDigit = true := by
  induction n using Nat.strong_induction_on with
  | _ n ih =>
    by_cases h : n < 10
    · rw [natDigits_lt h]
      intro c hc
      simp at hc
      subst hc
      exact digitChar_isDigit h
    · rw [natDigits_ge h]
      intro c hc
      rcases List.mem_append.1 hc with h1 | h2
      · exact ih (n / 10) (Nat.div_lt_self (by omega) (by omega)) c h1
      · simp at h2
        subst h2
        exact digitChar_isDigit (Nat.mod_lt _ (by omega))

/-! Helper lemmas about characters and small string operations. -/

lemma takeWhile_eq_self_of_all {p : Char → Bool} {l : List Char}
    (h : ∀ c ∈ l, p c = true) : l.takeWhile p = l := by
  induction l with
  | nil => rfl
  | cons a l ih =>
    rw [List.takeWhile_cons_of_pos (h a (by simp))]
    rw [ih (fun c hc => h c (by simp [hc]))]

lemma lc_of_digit {c : Char} (h : c.isDigit = true) : lc c = c := by
  unfold lc Char.toLower
  have h1 : c.toNat ≤ 57 := by
    simp [Char.isDigit] at h
    have := h.2
    simpa [Char.toNat] using this
  rw [if_neg]
  omega

lemma isWordChar_of_digit {c : Char} (h : c.isDigit = true) : isWordChar c = true := by
  simp [isWordChar, Char.isAlphanum, h]

/-! Helper lemmas about `mainMatch` and `specFullMatchSuffix` on the names
the generator itself produces. -/

lemma mkMainName_data (m : Nat) :
    (mkMainName m).data = 'M' :: 'a' :: 'i' :: 'n' :: ' ' :: natDigits m := rfl

lemma mainMatch_mkMainName (m : Nat) : mainMatch (mkMainName m) = some m := by
  have htw : (natDigits m).takeWhile Char.isDigit = natDigits m :=
    takeWhile_eq_self_of_all (natDigits_all_digit m)
  have hne : (natDigits m).isEmpty = false := by
    simp [List.isEmpty_iff, natDigits_ne_nil m]
  rw [mainMatch, mkMainName_data]
  simp [isPrefixCI, lc, htw, hne, parseDigits_natDigits]

lemma specFullMatchSuffix_mkMainName (m : Nat) :
    specFullMatchSuffix (mkMainName m) = some m := by
  have hall : (natDigits m).all Char.isDigit = true :=
    List.all_eq_true.2 (natDigits_all_digit m)
  have hne : (natDigits m).isEmpty = false := by
    simp [List.isEmpty_iff, natDigits_ne_nil m]
  rw [specFullMatchSuffix, mkMainName_data]
  simp [isPrefixCI, lc, hall, hne, parseDigits_natDigits]

lemma isPrefixCI_main_inv {cs : List Char}
    (h : isPrefixCI ['m', 'a', 'i', 'n'] cs = true) :
    ∃ c1 c2 c3 c4 r, cs = c1 :: c2 :: c3 :: c4 :: r ∧
      lc c1 = 'm' ∧ lc c2 = 'a' ∧ lc c3 = 'i' ∧ lc c4 = 'n' := by
  rcases cs with _ | ⟨c1, _ | ⟨c2, _ | ⟨c3, _ | ⟨c4, r⟩⟩⟩⟩ <;>
    simp [isPrefixCI] at h
  exact ⟨c1, c2, c3, c4, r, rfl, h.1, h.2.1, h.2.2.1, h.2.2.2⟩

lemma specFullMatchSuffix_imp_mainMatch {s : String} {n : Nat}
    (h : specFullMatchSuffix s = some n) : mainMatch s = some n := by
  rw [specFullMatchSuffix] at h
  by_cases hpre : isPrefixCI ['m', 'a', 'i', 'n'] s.data = true
  · obtain ⟨c1, c2, c3, c4, r, hdata, h1, h2, h3, h4⟩ := isPrefixCI_main_inv hpre
    rw [mainMatch, if_pos hpre, hdata]
    rw [if_pos hpre, hdata] at h
    simp only [List.drop_succ_cons, List.drop_zero] at h ⊢
    rcases r with _ | ⟨c, ds⟩
    · exact h
    · simp only [] at h ⊢
      by_cases hc : c = ' '
      · rw [if_pos hc] at h ⊢
        by_cases hds : (!ds.isEmpty && ds.all Char.isDigit) = true
        · rw [if_pos hds] at h
          have hsplit : (!ds.isEmpty) = true ∧ ds.all Char.isDigit = true := by
            rw [Bool.and_eq_true] at hds
            exact hds
          have hall : ∀ a ∈ ds, Char.isDigit a = true :=
            List.all_eq_true.1 hsplit.2
          have hne : ds.isEmpty = false := by
            simpa using hsplit.1
          simp only [takeWhile_eq_self_of_all hall]
          rw [if_neg (by simp [hne])]
          exact h
        · rw [if_neg hds] at h
          exact absurd h (by simp)
      · rw [if_neg hc] at h ⊢
        exact absurd h (by simp)
  · rw [if_neg hpre] at h
    exact absurd h (by simp)

/-! Characterization of the reduce in getValidNewPipelineName. -/

lemma le_bumpNum (a : Int) (p : PipelineMetaData) : a ≤ bumpNum a p := by
  unfold bumpNum
  cases mainMatch p.name with
  | none => exact le_refl a
  | some n => exact le_max_left _ _

lemma bumpNum_of_match {a : Int} {p : PipelineMetaData} {n : Nat}
    (h : mainMatch p.name = some n) : bumpNum a p = max a n := by
  unfold bumpNum
  rw [h]

lemma le_foldl_bumpNum (ps : List PipelineMetaData) :
    ∀ a : Int, a ≤ ps.foldl bumpNum a := by
  induction ps with
  | nil => intro a; exact le_refl a
  | cons p ps ih =>
    intro a
    exact le_trans (le_bumpNum a p) (ih (bumpNum a p))

lemma match_le_foldl_bumpNum {ps : List PipelineMetaData} {p : PipelineMetaData}
    (hp : p ∈ ps) {n : Nat} (hn : mainMatch p.name = some n) :
    ∀ a : Int, (n : Int) ≤ ps.foldl bumpNum a := by
  induction ps with
  | nil => cases hp
  | cons q ps ih =>
    intro a
    rcases List.mem_cons.1 hp with heq | hmem
    · subst heq
      refine le_trans ?_ (le_foldl_bumpNum ps (bumpNum a p))
      rw [bumpNum_of_match hn]
      exact le_max_right _ _
    · exact ih hmem (bumpNum a q)

lemma foldl_bumpNum_reached (ps : List PipelineMetaData) :
    ∀ a : Int, ps.foldl bumpNum a = a ∨
      ∃ p ∈ ps, ∃ n : Nat, mainMatch p.name = some n ∧ ps.foldl bumpNum a = (n : Int) := by
  induction ps with
  | nil => intro a; exact Or.inl rfl
  | cons q ps ih =>
    intro a
    rcases ih (bumpNum a q) with h | ⟨p, hp, n, hn, he⟩
    · rw [List.foldl_cons, h]
      rcases hq : mainMatch q.name with _ | n
      · exact Or.inl (by rw [bumpNum, hq])
      · rcases le_total (n : Int) a with hle | hle
        · exact Or.inl (by rw [bumpNum_of_match hq, max_eq_left hle])
        · refine Or.inr ⟨q, List.mem_cons_self _ _, n, hq, ?_⟩
          rw [bumpNum_of_match hq, max_eq_right hle]
    · exact Or.inr ⟨p, List.mem_cons_of_mem _ hp, n, hn, he⟩

lemma foldl_bumpNum_of_all_none {ps : List PipelineMetaData}
    (h : ∀ p ∈ ps, mainMatch p.name = none) : ∀ a : Int, ps.foldl bumpNum a = a := by
  induction ps with
  | nil => intro a; rfl
  | cons q ps ih =>
    intro a
    rw [List.foldl_cons]
    have hq : bumpNum a q = a := by rw [bumpNum, h q (List.mem_cons_self _ _)]
    rw [hq]
    exact ih (fun p hp => h p (List.mem_cons_of_mem _ hp)) a

lemma neg_one_le_largestExistingNumber (ps : List PipelineMetaData) :
    -1 ≤ largestExistingNumber ps :=
  le_foldl_bumpNum ps (-1)

/-- when no name matches the regex, the generator returns "Main". -/
lemma getValidNewPipelineName_of_all_none {ps : List PipelineMetaData}
    (h : ∀ p ∈ ps, mainMatch p.name = none) :
    getValidNewPipelineName ps = "Main" := by
  unfold getValidNewPipelineName largestExistingNumber
  rw [foldl_bumpNum_of_all_none h (-1)]
  rfl

/-- when N is the largest matched number, the generator returns "Main N+1". -/
lemma getValidNewPipelineName_of_max {ps : List PipelineMetaData} {N : Nat}
    (h1 : ∃ p ∈ ps, mainMatch p.name = some N)
    (h2 : ∀ p ∈ ps, ∀ n : Nat, mainMatch p.name = some n → n ≤ N) :
    getValidNewPipelineName ps = mkMainName (N + 1) := by
  obtain ⟨p, hp, hpn⟩ := h1
  have hge : (N : Int) ≤ largestExistingNumber ps :=
    match_le_foldl_bumpNum hp hpn (-1)
  have hle : largestExistingNumber ps ≤ (N : Int) := by
    rcases foldl_bumpNum_reached ps (-1) with h | ⟨q, hq, n, hn, he⟩
    · rw [largestExistingNumber, h]
      omega
    · rw [largestExistingNumber, he]
      exact_mod_cast h2 q hq n hn
  have heq : largestExistingNumber ps = (N : Int) := le_antisymm hle hge
  unfold getValidNewPipelineName
  rw [heq]
  have htn : ((N : Int) + 1).toNat = N + 1 := by omega
  rw [if_pos (by omega), htn]

/-- the generated name always matches its own regex, with the successor
number as suffix when the reduce found any match. -/
lemma mainMatch_getValidNewPipelineName (ps : List PipelineMetaData) :
    mainMatch (getValidNewPipelineName ps) =
      some (largestExistingNumber ps + 1).toNat := by
  unfold getValidNewPipelineName
  by_cases h : 0 < largestExistingNumber ps + 1
  · rw [if_pos h]
    exact mainMatch_mkMainName _
  · rw [if_neg h]
    have : largestExistingNumber ps = -1 := by
      have := neg_one_le_largestExistingNumber ps
      omega
    rw [this]
    decide

/-! Computation of getPathFromName on generated and on matching names. -/

lemma map_id_of_mem {f : Char → Char} {l : List Char}
    (h : ∀ c ∈ l, f c = c) : l.map f = l := by
  induction l with
  | nil => rfl
  | cons a l ih =>
    rw [List.map_cons, h a (List.mem_cons_self _ _),
      ih (fun c hc => h c (List.mem_cons_of_mem _ hc))]

lemma repl_of_digit {c : Char} (h : c.isDigit = true) :
    (if isWordChar c then c else '_') = c := by
  rw [if_pos (isWordChar_of_digit h)]

lemma getPathFromName_eq (name : String) :
    (getPathFromName name).data =
      ((name.data.map lc).map (fun c => if isWordChar c then c else '_')) ++
        ".orchest".data := rfl

lemma getPathFromName_mkMainName (m : Nat) :
    (getPathFromName (mkMainName m)).data =
      'm' :: 'a' :: 'i' :: 'n' :: '_' :: (natDigits m ++ ".orchest".data) := by
  have hmap1 : (natDigits m).map lc = natDigits m :=
    map_id_of_mem (fun c hc => lc_of_digit (natDigits_all_digit m c hc))
  have hmap2 : (natDigits m).map (fun c => if isWordChar c then c else '_') = natDigits m :=
    map_id_of_mem (fun c hc => repl_of_digit (natDigits_all_digit m c hc))
  rw [getPathFromName_eq, mkMainName_data]
  simp only [List.map_cons, hmap1, hmap2]
  have e1 : lc 'M' = 'm' := by decide
  have e2 : lc 'a' = 'a' := by decide
  have e3 : lc 'i' = 'i' := by decide
  have e4 : lc 'n' = 'n' := by decide
  have e5 : lc ' ' = ' ' := by decide
  rw [e1, e2, e3, e4, e5]
  have w1 : (if isWordChar 'm' then 'm' else '_') = 'm' := by decide
  have w2 : (if isWordChar 'a' then 'a' else '_') = 'a' := by decide
  have w3 : (if isWordChar 'i' then 'i' else '_') = 'i' := by decide
  have w4 : (if isWordChar 'n' then 'n' else '_') = 'n' := by decide
  have w5 : (if isWordChar ' ' then ' ' else '_') = '_' := by decide
  rw [w1, w2, w3, w4, w5]
  simp [List.cons_append]

lemma getPathFromName_of_main_prefix {name : String} {c1 c2 c3 c4 : Char}
    {rest : List Char} (hdata : name.data = c1 :: c2 :: c3 :: c4 :: rest)
    (h1 : lc c1 = 'm') (h2 : lc c2 = 'a') (h3 : lc c3 = 'i') (h4 : lc c4 = 'n') :
    (getPathFromName name).data =
      'm' :: 'a' :: 'i' :: 'n' ::
        (((rest.map lc).map (fun c => if isWordChar c then c else '_')) ++
          ".orchest".data) := by
  rw [getPathFromName_eq, hdata]
  simp only [List.map_cons, h1, h2, h3, h4]
  have w1 : (if isWordChar 'm' then 'm' else '_') = 'm' := by decide
  have w2 : (if isWordChar 'a' then 'a' else '_') = 'a' := by decide
  have w3 : (if isWordChar 'i' then 'i' else '_') = 'i' := by decide
  have w4 : (if isWordChar 'n' then 'n' else '_') = 'n' := by decide
  rw [w1, w2, w3, w4]
  simp [List.cons_append]

/-- inversion of a full spec match: the name is a case variant of "Main",
alone or followed by one space and a nonempty digit run whose value is the
suffix. -/
lemma specFullMatchSuffix_inv {s : String} {k : Nat}
    (h : specFullMatchSuffix s = some k) :
    ∃ c1 c2 c3 c4, lc c1 = 'm' ∧ lc c2 = 'a' ∧ lc c3 = 'i' ∧ lc c4 = 'n' ∧
      ((s.data = [c1, c2, c3, c4] ∧ k = 0) ∨
        (∃ ds, s.data = c1 :: c2 :: c3 :: c4 :: ' ' :: ds ∧ ds ≠ [] ∧
          (∀ c ∈ ds, c.isDigit = true) ∧ k = parseDigits ds)) := by
  rw [specFullMatchSuffix] at h
  by_cases hpre : isPrefixCI ['m', 'a', 'i', 'n'] s.data = true
  · obtain ⟨c1, c2, c3, c4, r, hdata, h1, h2, h3, h4⟩ := isPrefixCI_main_inv hpre
    rw [if_pos hpre, hdata] at h
    simp only [List.drop_succ_cons, List.drop_zero] at h
    refine ⟨c1, c2, c3, c4, h1, h2, h3, h4, ?_⟩
    rcases r with _ | ⟨c, ds⟩
    · refine Or.inl ⟨hdata, ?_⟩
      simpa using h.symm
    · simp only [] at h
      by_cases hc : c = ' '
      · rw [if_pos hc] at h
        by_cases hds : (!ds.isEmpty && ds.all Char.isDigit) = true
        · rw [if_pos hds] at h
          have hsplit : (!ds.isEmpty) = true ∧ ds.all Char.isDigit = true := by
            rw [Bool.and_eq_true] at hds
            exact hds
          refine Or.inr ⟨ds, ?_, ?_, List.all_eq_true.1 hsplit.2, ?_⟩
          · rw [hdata, hc]
          · intro hnil
            rw [hnil] at hsplit
            simp at hsplit
          · simpa using h.symm
        · rw [if_neg hds] at h
          exact absurd h (by simp)
      · rw [if_neg hc] at h
        exact absurd h (by simp)
  · rw [if_neg hpre] at h
    exact absurd h (by simp)

/-! Freshness of the generated name and of its derived path. -/

/-- the name returned by getValidNewPipelineName never equals the name of a
pipeline in the input list. -/
lemma getValidNewPipelineName_ne_name {ps : List PipelineMetaData}
    {p : PipelineMetaData} (hp : p ∈ ps) :
    getValidNewPipelineName ps ≠ p.name := by
  intro he
  have hm := mainMatch_getValidNewPipelineName ps
  rw [he, largestExistingNumber] at hm
  have hle := match_le_foldl_bumpNum hp hm (-1)
  have hneg := neg_one_le_largestExistingNumber ps
  rw [largestExistingNumber] at hneg
  omega

/-- the path derived from the generated name differs from the path of any
listed pipeline whose name fully matches "Main( N)?" and whose path is
derived from its name. -/
lemma getValidNewPipelineName_path_fresh {ps : List PipelineMetaData}
    {p : PipelineMetaData} (hp : p ∈ ps) {k : Nat}
    (hspec : specFullMatchSuffix p.name = some k)
    (hpath : p.path = getPathFromName p.name) :
    getPathFromName (getValidNewPipelineName ps) ≠ p.path := by
  have hmm := specFullMatchSuffix_imp_mainMatch hspec
  have hk_le := match_le_foldl_bumpNum hp hmm (-1)
  have hL : (k : Int) ≤ largestExistingNumber ps := hk_le
  have hpos : 0 < largestExistingNumber ps + 1 := by omega
  have hres : getValidNewPipelineName ps =
      mkMainName (largestExistingNumber ps + 1).toNat := by
    unfold getValidNewPipelineName
    rw [if_pos hpos]
  have hmk : k < (largestExistingNumber ps + 1).toNat := by omega
  rw [hres]
  intro he
  have hd := congrArg String.data he
  rw [getPathFromName_mkMainName] at hd
  obtain ⟨c1, c2, c3, c4, h1, h2, h3, h4, hcase⟩ := specFullMatchSuffix_inv hspec
  rcases hcase with ⟨hdata, hk0⟩ | ⟨ds, hdata, hne, hdig, hkds⟩
  · have hp4 : p.path.data =
        'm' :: 'a' :: 'i' :: 'n' :: ".orchest".data := by
      rw [hpath, getPathFromName_of_main_prefix hdata h1 h2 h3 h4]
      rfl
    rw [hp4] at hd
    simp at hd
  · have hmap1 : ds.map lc = ds := map_id_of_mem (fun c hc => lc_of_digit (hdig c hc))
    have hmap2 : ds.map (fun c => if isWordChar c then c else '_') = ds :=
      map_id_of_mem (fun c hc => repl_of_digit (hdig c hc))
    have hp4 : p.path.data =
        'm' :: 'a' :: 'i' :: 'n' :: '_' :: (ds ++ ".orchest".data) := by
      rw [hpath, getPathFromName_of_main_prefix hdata h1 h2 h3 h4]
      have e5 : lc ' ' = ' ' := by decide
      have w5 : (if isWordChar ' ' then ' ' else '_') = '_' := by decide
      simp only [List.map_cons, e5, w5, hmap1, hmap2, List.cons_append]
    rw [hp4] at hd
    simp only [List.cons.injEq] at hd
    have hnd : natDigits (largestExistingNumber ps + 1).toNat = ds :=
      List.append_cancel_right hd.2.2.2.2.2
    have : (largestExistingNumber ps + 1).toNat = parseDigits ds := by
      rw [← hnd, parseDigits_natDigits]
    omega

/-! Behaviour of the `\/?[^\/]*.orchest$` replacement deriving pipelineCwd. -/

lemma cwdBody_true (g : List Char) (hg : ∀ c ∈ g, c ≠ '/') :
    cwdBody (g ++ ".orchest".data) = true := by
  have hlen : (g ++ ".orchest".data).length = g.length + 8 := by simp
  have hsplit : (g ++ ['.']) ++ "orchest".data = g ++ ".orchest".data := by
    rw [List.append_assoc]
    rfl
  have hdrop : (g ++ ".orchest".data).drop (g.length + 1) = "orchest".data := by
    rw [← hsplit]
    exact List.drop_left' (by simp)
  have htake : (g ++ ".orchest".data).take g.length = g :=
    List.take_left' rfl
  have hall : g.all (fun c => c != '/') = true :=
    List.all_eq_true.2 (fun c hc => by simpa using hg c hc)
  unfold cwdBody
  rw [hlen]
  have h7 : g.length + 8 - 7 = g.length + 1 := by omega
  have h8 : g.length + 8 - 8 = g.length := by omega
  rw [h7, h8, hdrop, htake, hall]
  simp

lemma cwdBody_false (a g : List Char) :
    cwdBody (a ++ '/' :: (g ++ ".orchest".data)) = false := by
  have hlen : (a ++ '/' :: (g ++ ".orchest".data)).length
      = a.length + g.length + 9 := by simp; omega
  have h8 : a.length + g.length + 9 - 8 = a.length + (g.length + 1) := by omega
  have htake : (a ++ '/' :: (g ++ ".orchest".data)).take (a.length + (g.length + 1))
      = a ++ '/' :: (g ++ ".orchest".data).take g.length := by
    rw [List.take_append_eq_append_take]
    rw [List.take_of_length_le (by omega)]
    congr 1
    have : a.length + (g.length + 1) - a.length = g.length + 1 := by omega
    rw [this]
    rfl
  have hall : ((a ++ '/' :: (g ++ ".orchest".data)).take (a.length + (g.length + 1))).all
      (fun c => c != '/') = false := by
    rw [htake]
    simp
  unfold cwdBody
  rw [hlen, h8, hall]
  simp

lemma cwdMatchHere_cons (c : Char) (cs : List Char) :
    cwdMatchHere (c :: cs) = (cwdBody (c :: cs) || (c == '/' && cwdBody cs)) := rfl

lemma cwdMatchHere_of_body {l : List Char} (h : cwdBody l = true) :
    cwdMatchHere l = true := by
  cases l with
  | nil => exact h
  | cons c cs =>
    rw [cwdMatchHere_cons, h]
    rfl

lemma cwdMatchHere_slash (g : List Char) (hg : ∀ c ∈ g, c ≠ '/') :
    cwdMatchHere ('/' :: (g ++ ".orchest".data)) = true := by
  rw [cwdMatchHere_cons, cwdBody_true g hg]
  simp

lemma cwdMatchHere_inside (d : Char) (dir g : List Char) :
    cwdMatchHere (d :: (dir ++ '/' :: (g ++ ".orchest".data))) = false := by
  have hA : cwdBody (d :: (dir ++ '/' :: (g ++ ".orchest".data))) = false := by
    have := cwdBody_false (d :: dir) g
    simpa [List.cons_append] using this
  have hB : cwdBody (dir ++ '/' :: (g ++ ".orchest".data)) = false := cwdBody_false dir g
  rw [cwdMatchHere_cons, hA, hB]
  simp

lemma replaceCwdOnce_dir (dir g : List Char) (hg : ∀ c ∈ g, c ≠ '/') :
    replaceCwdOnce (dir ++ '/' :: (g ++ ".orchest".data)) = dir ++ ['/'] := by
  induction dir with
  | nil =>
    rw [List.nil_append, replaceCwdOnce, if_pos (cwdMatchHere_slash g hg)]
    rfl
  | cons d dir ih =>
    rw [List.cons_append, replaceCwdOnce,
      if_neg (by simp [cwdMatchHere_inside d dir g]), ih]
    rfl

lemma replaceCwdOnce_no_slash (g : List Char) (hg : ∀ c ∈ g, c ≠ '/') :
    replaceCwdOnce (g ++ ".orchest".data) = ['/'] := by
  rcases hcs : g ++ ".orchest".data with _ | ⟨c, cs⟩
  · exact absurd hcs (by simp)
  · rw [replaceCwdOnce, if_pos]
    rw [← hcs]
    exact cwdMatchHere_of_body (cwdBody_true g hg)

/-! Claim theorems. -/

lemma le_of_mainMatch_eq {s : String} {v n N : Nat} (hv : mainMatch s = some v)
    (hvN : v ≤ N) (hn : mainMatch s = some n) : n ≤ N := by
  rw [hv] at hn
  injection hn with h
  omega

lemma mkMainName_one : mkMainName 1 = "Main 1" := by
  unfold mkMainName
  rw [natDigits_lt (by omega)]
  decide

lemma mkMainName_four : mkMainName 4 = "Main 4" := by
  unfold mkMainName
  rw [natDigits_lt (by omega)]
  decide

/-- Claim C1, counterexample: the regex `^Main( [0-9]+)?` is not anchored at
the end of the name, so for the single existing name "Mainframe" — which
does not match the pattern "Main( N)?" as a whole — the generator does not
return the base name "Main" (it returns "Main 1"). -/
theorem C1_counterexample :
    (∀ p ∈ [PipelineMetaData.mk "Mainframe" "x.orchest" "u0"],
      specFullMatchSuffix p.name = none) ∧
    getValidNewPipelineName [PipelineMetaData.mk "Mainframe" "x.orchest" "u0"]
      ≠ "Main" := by
  refine ⟨by decide, ?_⟩
  have hmax : getValidNewPipelineName [PipelineMetaData.mk "Mainframe" "x.orchest" "u0"]
      = mkMainName 1 :=
    getValidNewPipelineName_of_max
      ⟨PipelineMetaData.mk "Mainframe" "x.orchest" "u0", by simp, by decide⟩
      (by
        intro p hp n hn
        rcases List.mem_singleton.1 hp with rfl
        exact le_of_mainMatch_eq (v := 0) (by decide) (by omega) hn)
  rw [hmax, mkMainName_one]
  decide

/-- Claim C1 (amended): with "a name matching" read as the code's prefix
match (the name starts with "Main" case-insensitively, the suffix being the
digits right after "Main ", counting 0 when absent), the generator returns
"Main" when no name matches and "Main N+1" when N is the largest matched
suffix; in particular ["Main", "Main 1", "Main 3"] yields "Main 4" with
derived path "main_4.orchest" and the empty list yields "Main" with path
"main.orchest". -/
theorem C1_default_name (ps : List PipelineMetaData) :
    ((∀ p ∈ ps, mainMatch p.name = none) → getValidNewPipelineName ps = "Main") ∧
    (∀ N : Nat, (∃ p ∈ ps, mainMatch p.name = some N) →
      (∀ p ∈ ps, ∀ n : Nat, mainMatch p.name = some n → n ≤ N) →
      getValidNewPipelineName ps = mkMainName (N + 1)) ∧
    getValidNewPipelineName
      [PipelineMetaData.mk "Main" "main.orchest" "u1",
        PipelineMetaData.mk "Main 1" "main_1.orchest" "u2",
        PipelineMetaData.mk "Main 3" "main_3.orchest" "u3"] = "Main 4" ∧
    getPathFromName "Main 4" = "main_4.orchest" ∧
    getValidNewPipelineName [] = "Main" ∧
    getPathFromName "Main" = "main.orchest" := by
  refine ⟨fun h => getValidNewPipelineName_of_all_none h,
    fun N h1 h2 => getValidNewPipelineName_of_max h1 h2, ?_, by decide,
    getValidNewPipelineName_of_all_none (by simp), by decide⟩
  have hmax : getValidNewPipelineName
      [PipelineMetaData.mk "Main" "main.orchest" "u1",
        PipelineMetaData.mk "Main 1" "main_1.orchest" "u2",
        PipelineMetaData.mk "Main 3" "main_3.orchest" "u3"] = mkMainName 4 := by
    refine getValidNewPipelineName_of_max
      ⟨PipelineMetaData.mk "Main 3" "main_3.orchest" "u3", by simp, by decide⟩ ?_
    intro p hp n hn
    simp only [List.mem_cons, List.not_mem_nil, or_false] at hp
    rcases hp with rfl | rfl | rfl
    · exact le_of_mainMatch_eq (v := 0) (by decide) (by omega) hn
    · exact le_of_mainMatch_eq (v := 1) (by decide) (by omega) hn
    · exact le_of_mainMatch_eq (v := 3) (by decide) (by omega) hn
  rw [hmax, mkMainName_four]

/-- Claim C1 witness: the amended theorem applied at the empty list and at a
singleton list whose only name merely begins with "Main". -/
theorem C1_default_name_witness :
    getValidNewPipelineName [] = "Main" ∧
    getValidNewPipelineName [PipelineMetaData.mk "MainBackup" "y.orchest" "u9"]
      = mkMainName 1 := by
  constructor
  · exact (C1_default_name []).1 (by simp)
  · refine (C1_default_name _).2.1 0 ⟨PipelineMetaData.mk "MainBackup" "y.orchest" "u9", by simp, by decide⟩ ?_
    intro p hp n hn
    rcases List.mem_singleton.1 hp with rfl
    exact le_of_mainMatch_eq (v := 0) (by decide) (by omega) hn

/-- Claim C2, counterexample: a single existing pipeline (names trivially
pairwise distinct) whose path "main.orchest" is unrelated to its name "Foo":
no name matches, so the generated name is "Main" and its derived path
"main.orchest" collides with the existing pipeline's path. -/
theorem C2_counterexample :
    List.Pairwise (fun a b : PipelineMetaData => a.name ≠ b.name)
      [PipelineMetaData.mk "Foo" "main.orchest" "u1"] ∧
    ∃ p ∈ [PipelineMetaData.mk "Foo" "main.orchest" "u1"],
      getPathFromName
        (getValidNewPipelineName [PipelineMetaData.mk "Foo" "main.orchest" "u1"])
        = p.path := by
  decide

/-- Claim C2 (amended): for every list of existing pipelines (no
distinctness needed) the generated default name differs from every existing
name; the derived path, however, is only guaranteed distinct from the path
of a pipeline whose name fully matches "Main( N)?" (case-insensitively) and
whose path is getPathFromName of its name — an existing path not derived
that way may collide with the generated one. -/
theorem C2_no_identity_collision (ps : List PipelineMetaData) :
    (∀ p ∈ ps, getValidNewPipelineName ps ≠ p.name) ∧
    (∀ p ∈ ps, ∀ k : Nat, specFullMatchSuffix p.name = some k →
      p.path = getPathFromName p.name →
      getPathFromName (getValidNewPipelineName ps) ≠ p.path) :=
  ⟨fun _ hp => getValidNewPipelineName_ne_name hp,
    fun _ hp _ hk hpath => getValidNewPipelineName_path_fresh hp hk hpath⟩

/-- Claim C2 witness: for the singleton list ["Main 3" ↦ "main_3.orchest"]
the generated name is not "Main 3" and the generated path is not
"main_3.orchest". -/
theorem C2_no_identity_collision_witness :
    getValidNewPipelineName [PipelineMetaData.mk "Main 3" "main_3.orchest" "u1"]
      ≠ "Main 3" ∧
    getPathFromName
      (getValidNewPipelineName [PipelineMetaData.mk "Main 3" "main_3.orchest" "u1"])
      ≠ "main_3.orchest" := by
  constructor
  · exact (C2_no_identity_collision _).1
      (PipelineMetaData.mk "Main 3" "main_3.orchest" "u1") (List.mem_singleton.2 rfl)
  · exact (C2_no_identity_collision _).2
      (PipelineMetaData.mk "Main 3" "main_3.orchest" "u1") (List.mem_singleton.2 rfl)
      3 (by decide) (by decide)

/-- Claim C3: for every list of existing pipelines, the numeric suffix of
the generated name (missing suffix counting as 0) is strictly greater than
the numeric suffix of every existing name matching "Main( N)?"
case-insensitively (missing suffix counting as 0). -/
theorem C3_suffix_strictly_larger (ps : List PipelineMetaData) :
    ∃ m : Nat, specFullMatchSuffix (getValidNewPipelineName ps) = some m ∧
      ∀ p ∈ ps, ∀ n : Nat, specFullMatchSuffix p.name = some n → n < m := by
  by_cases h : 0 < largestExistingNumber ps + 1
  · refine ⟨(largestExistingNumber ps + 1).toNat, ?_, ?_⟩
    · unfold getValidNewPipelineName
      rw [if_pos h]
      exact specFullMatchSuffix_mkMainName _
    · intro p hp n hn
      have hmm := specFullMatchSuffix_imp_mainMatch hn
      have hle : (n : Int) ≤ largestExistingNumber ps :=
        match_le_foldl_bumpNum hp hmm (-1)
      omega
  · refine ⟨0, ?_, ?_⟩
    · unfold getValidNewPipelineName
      rw [if_neg h]
      decide
    · intro p hp n hn
      have hmm := specFullMatchSuffix_imp_mainMatch hn
      have hle : (n : Int) ≤ largestExistingNumber ps :=
        match_le_foldl_bumpNum hp hmm (-1)
      omega

/-- Claim C3 witness: for the singleton list ["Main 3"] the generated name
carries a suffix strictly greater than 3. -/
theorem C3_suffix_strictly_larger_witness :
    ∃ m : Nat, specFullMatchSuffix
      (getValidNewPipelineName [PipelineMetaData.mk "Main 3" "p.orchest" "u1"])
        = some m ∧ 3 < m := by
  obtain ⟨m, hm, hlt⟩ :=
    C3_suffix_strictly_larger [PipelineMetaData.mk "Main 3" "p.orchest" "u1"]
  exact ⟨m, hm, hlt (PipelineMetaData.mk "Main 3" "p.orchest" "u1")
    (List.mem_singleton.2 rfl) 3 (by decide)⟩

/-- Claim C4, counterexample: a submission whose path duplicates an existing
pipeline's path (name non-empty, extension correct) is not blocked by the
handler itself — onSubmitCreatePipeline issues the POST request; duplicate
paths are only blocked by the disabled submit button. -/
theorem C4_counterexample :
    isPathTaken [PipelineRowData.mk "Main" "main.orchest" "u1" ""] "main.orchest" = true ∧
    onSubmitCreatePipeline "Main" "main.orchest"
      = CreateOutcome.request "Main" "main.orchest" := by
  decide

/-- Claim C4 (amended): the handler onSubmitCreatePipeline blocks an empty
name, a missing path (empty or ".orchest") and a wrong extension with an
alert and no request; a duplicate path is instead blocked in the dialog by
disabling the submit button and showing the inline text "File already
exists" (the handler itself would issue the request for a duplicate path). -/
theorem C4_create_validation (pipelineName pipelinePath : String)
    (pipelineRows : List PipelineRowData) (isOperating : Bool) :
    ((pipelineName = "" ∨ pipelinePath = "" ∨ pipelinePath = ".orchest" ∨
        jsEndsWith pipelinePath ".orchest" = false) →
      ∃ msg, onSubmitCreatePipeline pipelineName pipelinePath
        = CreateOutcome.alert "Error" msg) ∧
    (isPathTaken pipelineRows pipelinePath = true →
      createSubmitDisabled pipelineRows pipelinePath isOperating = true ∧
      createPathHelperText pipelineRows pipelinePath = "File already exists") := by
  constructor
  · intro h
    unfold onSubmitCreatePipeline
    by_cases h1 : pipelineName = ""
    · rw [if_pos h1]
      exact ⟨_, rfl⟩
    · rw [if_neg h1]
      by_cases h2 : pipelinePath = "" ∨ pipelinePath = ".orchest"
      · rw [if_pos h2]
        exact ⟨_, rfl⟩
      · rw [if_neg h2]
        by_cases h3 : jsEndsWith pipelinePath ".orchest" = false
        · rw [if_pos h3]
          exact ⟨_, rfl⟩
        · rcases h with h | h | h | h
          exacts [absurd h h1, absurd (Or.inl h) h2, absurd (Or.inr h) h2, absurd h h3]
  · intro h
    exact ⟨by simp [createSubmitDisabled, h], by simp [createPathHelperText, h]⟩

/-- Claim C4 witness: the empty name is blocked with an alert, and a
duplicate path disables the button and shows the inline message. -/
theorem C4_create_validation_witness :
    (∃ msg, onSubmitCreatePipeline "" "x.orchest" = CreateOutcome.alert "Error" msg) ∧
    createSubmitDisabled [PipelineRowData.mk "Main" "main.orchest" "u1" ""]
      "main.orchest" false = true ∧
    createPathHelperText [PipelineRowData.mk "Main" "main.orchest" "u1" ""]
      "main.orchest" = "File already exists" := by
  refine ⟨(C4_create_validation "" "x.orchest" [] false).1 (Or.inl rfl), ?_⟩
  exact (C4_create_validation "Main" "main.orchest"
    [PipelineRowData.mk "Main" "main.orchest" "u1" ""] false).2 (by decide)

/-- Claim C5: a rename submission whose path does not end in ".orchest" is
rejected by onSubmitEditPipelinePathModal with the fixed alert message and
no request is issued. -/
theorem C5_rename_extension_guard (pe : PipelineInEdit)
    (h : jsEndsWith pe.path ".orchest" = false) :
    onSubmitEditPipelinePathModal (some pe)
      = RenameOutcome.alert "Error" "The path should end in the .orchest extension." := by
  unfold onSubmitEditPipelinePathModal
  simp only []
  rw [if_pos h]

/-- Claim C5 witness: the guard fires on the path "foo". -/
theorem C5_rename_extension_guard_witness :
    onSubmitEditPipelinePathModal (some (PipelineInEdit.mk "u1" "foo"))
      = RenameOutcome.alert "Error" "The path should end in the .orchest extension." :=
  C5_rename_extension_guard (PipelineInEdit.mk "u1" "foo") (by decide)

/-- Claim C6, counterexample: deleting two confirmed uuids issues two DELETE
requests, but when one of them rejects the error alert is raised and the
pipeline list is NOT re-fetched (the re-fetch lives only in the fulfilled
branch of Promise.all), contradicting "still refreshed for whichever
requests succeeded". -/
theorem C6_counterexample :
    (deletePipelinesConfirmed "proj" ["a", "b"]
      (fun r => r.url == "/async/pipelines/delete/proj/b")).requests.length = 2 ∧
    (deletePipelinesConfirmed "proj" ["a", "b"]
      (fun r => r.url == "/async/pipelines/delete/proj/b")).alerted = true ∧
    (deletePipelinesConfirmed "proj" ["a", "b"]
      (fun r => r.url == "/async/pipelines/delete/proj/b")).refreshed = false := by
  decide

/-- Claim C6 (amended): the confirmed delete flow issues exactly one DELETE
request per selected uuid; when any request rejects, the error alert is
shown, the confirm resolves false and the list is not refreshed; the list is
refreshed (and the confirm resolves true) only when every request fulfills. -/
theorem C6_delete_flow (projectUuid : String) (pipelineUuids : List String)
    (rejects : DeleteRequest → Bool) :
    (deletePipelinesConfirmed projectUuid pipelineUuids rejects).requests
      = pipelineUuids.map (requestDeletePipelines projectUuid) ∧
    (deletePipelinesConfirmed projectUuid pipelineUuids rejects).requests.length
      = pipelineUuids.length ∧
    ((deletePipelinesConfirmed projectUuid pipelineUuids rejects).requests.any rejects
        = true →
      (deletePipelinesConfirmed projectUuid pipelineUuids rejects).alerted = true ∧
      (deletePipelinesConfirmed projectUuid pipelineUuids rejects).refreshed = false ∧
      (deletePipelinesConfirmed projectUuid pipelineUuids rejects).confirmResolved
        = false) ∧
    ((deletePipelinesConfirmed projectUuid pipelineUuids rejects).requests.any rejects
        = false →
      (deletePipelinesConfirmed projectUuid pipelineUuids rejects).refreshed = true ∧
      (deletePipelinesConfirmed projectUuid pipelineUuids rejects).alerted = false ∧
      (deletePipelinesConfirmed projectUuid pipelineUuids rejects).confirmResolved
        = true) := by
  refine ⟨by simp [deletePipelinesConfirmed], by simp [deletePipelinesConfirmed],
    fun h => ?_, fun h => ?_⟩
  · simp only [deletePipelinesConfirmed] at h ⊢
    simp [h]
  · simp only [deletePipelinesConfirmed] at h ⊢
    simp [h]

/-- Claim C6 witness: two uuids with no rejection give two requests and a
refresh; the rejection case is the counterexample input. -/
theorem C6_delete_flow_witness :
    (deletePipelinesConfirmed "proj" ["a", "b"] (fun _ => false)).requests.length = 2 ∧
    (deletePipelinesConfirmed "proj" ["a", "b"] (fun _ => false)).refreshed = true ∧
    (deletePipelinesConfirmed "proj" ["a", "b"] (fun _ => false)).alerted = false := by
  obtain ⟨h1, h2, h3, h4⟩ := C6_delete_flow "proj" ["a", "b"] (fun _ => false)
  obtain ⟨ha, hb, hc⟩ := h4 (by decide)
  exact ⟨h2, ha, hb⟩

/-- Claim C7, counterexample: a create submission with valid fields whose
POST fails leaves the create dialog closed (it is closed synchronously at
submission), and a rename submission whose PUT fails leaves the edit dialog
closed (the finally clause closes it); the forms do not remain open. -/
theorem C7_counterexample :
    (createPipelineFlow "Main" "main.orchest" true false none).requested = true ∧
    (createPipelineFlow "Main" "main.orchest" true false none).isCreateDialogOpen
      = false ∧
    (renamePipelineFlow (PipelineInEdit.mk "u1" "a.orchest") true (some 2)).requested
      = true ∧
    (renamePipelineFlow (PipelineInEdit.mk "u1" "a.orchest") true (some 2)).isEditDialogOpen
      = false := by
  decide

/-- Claim C7 (amended): failures are non-fatal — a failed (non-canceled)
create surfaces an alert, a failed rename with a parseable code surfaces the
mapped alert — but the dialog does not remain open: once validation passes
the create dialog is closed at submission and the rename dialog is closed
when its request settles, in both cases regardless of failure. -/
theorem C7_failure_nonfatal (pipelineName pipelinePath : String)
    (parsedMessage : Option String) (pe : PipelineInEdit) (parsedCode : Option Nat) :
    (∀ n q, onSubmitCreatePipeline pipelineName pipelinePath
        = CreateOutcome.request n q →
      (createPipelineFlow pipelineName pipelinePath true false
        parsedMessage).isCreateDialogOpen = false ∧
      ∃ m, (createPipelineFlow pipelineName pipelinePath true false
        parsedMessage).alertMsg = some m) ∧
    (jsEndsWith pe.path ".orchest" = true →
      (renamePipelineFlow pe true parsedCode).isEditDialogOpen = false ∧
      (renamePipelineFlow pe true parsedCode).refreshed = false) := by
  constructor
  · intro n q h
    unfold createPipelineFlow
    rw [h]
    refine ⟨rfl, ?_⟩
    cases parsedMessage with
    | none => exact ⟨_, rfl⟩
    | some m => exact ⟨_, rfl⟩
  · intro h
    unfold renamePipelineFlow onSubmitEditPipelinePathModal
    simp only []
    rw [if_neg (by simp [h])]
    exact ⟨rfl, rfl⟩

/-- Claim C7 witness: concrete failing create and rename runs end with their
dialogs closed and (for the create) an alert surfaced. -/
theorem C7_failure_nonfatal_witness :
    (createPipelineFlow "Main" "main.orchest" true false none).isCreateDialogOpen
      = false ∧
    (∃ m, (createPipelineFlow "Main" "main.orchest" true false none).alertMsg
      = some m) ∧
    (renamePipelineFlow (PipelineInEdit.mk "u1" "b.orchest") true none).isEditDialogOpen
      = false ∧
    (renamePipelineFlow (PipelineInEdit.mk "u1" "b.orchest") true none).refreshed
      = false := by
  obtain ⟨h1, h2⟩ := C7_failure_nonfatal "Main" "main.orchest" none
    (PipelineInEdit.mk "u1" "b.orchest") none
  obtain ⟨ha, hb⟩ := h1 "Main" "main.orchest" (by decide)
  obtain ⟨hc, hd⟩ := h2 (by decide)
  exact ⟨ha, hb, hc, hd⟩

/-- Claim C8: a rename rejected with a parseable body carrying code 2 raises
the error alert with the "path already exists" message of the fixed mapping,
the attempted path interpolated into it. -/
theorem C8_rename_code2_message (pe : PipelineInEdit)
    (h : jsEndsWith pe.path ".orchest" = true) :
    (renamePipelineFlow pe true (some 2)).alertMsg =
      some ("Cannot change the pipeline path, a file path with the name "
        ++ pe.path ++ "\x22 already exists.") := by
  unfold renamePipelineFlow onSubmitEditPipelinePathModal
  simp only []
  rw [if_neg (by simp [h])]
  rfl

/-- Claim C8 witness: code 2 on the attempted path "dup.orchest". -/
theorem C8_rename_code2_message_witness :
    (renamePipelineFlow (PipelineInEdit.mk "u1" "dup.orchest") true (some 2)).alertMsg =
      some ("Cannot change the pipeline path, a file path with the name "
        ++ "dup.orchest" ++ "\x22 already exists.") :=
  C8_rename_code2_message (PipelineInEdit.mk "u1" "dup.orchest") (by decide)

/-- Claim C9: for every pipeline path made of a directory prefix, a slash
and a slash-free final component ending in ".orchest", the working directory
handed to the parameter-file picker is the path with that final component
stripped and replaced by "/"; a path that is a bare filename becomes "/". -/
theorem C9_pipeline_cwd (dir g : List Char) (hg : '/' ∉ g) :
    pipelineCwd ⟨dir ++ '/' :: (g ++ ".orchest".data)⟩ = ⟨dir ++ ['/']⟩ ∧
    pipelineCwd ⟨g ++ ".orchest".data⟩ = "/" := by
  have hg' : ∀ c ∈ g, c ≠ '/' := fun c hc he => hg (he ▸ hc)
  constructor
  · unfold pipelineCwd
    rw [show (String.mk (dir ++ '/' :: (g ++ ".orchest".data))).data
        = dir ++ '/' :: (g ++ ".orchest".data) from rfl]
    rw [replaceCwdOnce_dir dir g hg']
  · unfold pipelineCwd
    rw [show (String.mk (g ++ ".orchest".data)).data = g ++ ".orchest".data from rfl]
    rw [replaceCwdOnce_no_slash g hg']

/-- Claim C9 witness: "foo/bar.orchest" becomes "foo/" and "main.orchest"
becomes "/". -/
theorem C9_pipeline_cwd_witness :
    pipelineCwd "foo/bar.orchest" = "foo/" ∧ pipelineCwd "main.orchest" = "/" := by
  obtain ⟨h1, _⟩ := C9_pipeline_cwd "foo".data "bar".data (by decide)
  obtain ⟨_, h2⟩ := C9_pipeline_cwd [] "main".data (by decide)
  exact ⟨h1, h2⟩

/-- Claim C10: the LoadParametersDialog submit calls its onSubmit prop with
the currently selected path unconditionally — the validity signals computed
for the picker are ignored at submit time — and the initial selected path is
the empty string, so "" or a path failing the .json/existence check can be
emitted. -/
theorem C10_load_parameters_unconditional :
    loadParametersInitialSelectedPath = "" ∧
    (∀ (selectedPath : String) (doesFileExist isCheckingFileValidity : Bool),
      loadParametersOnSubmit selectedPath doesFileExist isCheckingFileValidity
        = LoadParametersSubmitResult.emit selectedPath) ∧
    loadParametersOnSubmit loadParametersInitialSelectedPath false false
      = LoadParametersSubmitResult.emit "" :=
  ⟨rfl, fun _ _ _ => rfl, rfl⟩
